import Mathlib

/-!
Verification of the track statistics engine of the diary backend
(`backend/app/services/track_service.py`).

Modelling conventions:
* Python floats are modelled as exact rationals (`ℚ`); the transcendental
  Haversine leg function `calculate_distance` is modelled separately over `ℝ`,
  and the single-pass statistics engine `calculate_track_stats` is parametric
  in the pairwise leg-distance function `dist` (the source instantiates it
  with the Haversine function).
* A Python dict point with the optional keys `latitude`, `longitude`,
  `elevation`, `timestamp` becomes a structure of `Option` fields;
  a timestamp value is either a string (a list of characters) or an
  already-parsed instant (epoch seconds as a rational), mirroring the
  `isinstance(ts, str)` test in the source.
* `datetime.fromisoformat` is an external library routine; the engine is
  parametric in a partial parsing function `fromiso : List Char → Option ℚ`
  (`none` models the caught `ValueError`).
* `math.sqrt` raises for negative arguments, so it is modelled as an
  `Option`-valued function on `ℝ`.
-/

set_option allowUnsafeReducibility true
attribute [semireducible] Rat.add Rat.mul Rat.div Rat.sub Rat.neg Rat.inv

namespace TrackService

/-- A timestamp field value: either an ISO string or an already-parsed
instant (epoch seconds), mirroring the `isinstance(ts, str)` branch. -/
inductive TsVal where
  | str (s : List Char)
  | dt (t : ℚ)
deriving DecidableEq

/-- One GPS sample: the four optional fields read with `point.get(...)`. -/
structure TrackPoint where
  latitude : Option ℚ
  longitude : Option ℚ
  elevation : Option ℚ
  timestamp : Option TsVal
deriving DecidableEq

/-- The statistics record returned by `calculate_track_stats`. -/
structure TrackStatistics where
  distance_meters : ℚ
  duration_seconds : Option ℤ
  elevation_gain : Option ℚ
  elevation_loss : Option ℚ
  max_elevation : Option ℚ
  min_elevation : Option ℚ
  avg_speed : Option ℚ
  min_lat : Option ℚ
  max_lat : Option ℚ
  min_lon : Option ℚ
  max_lon : Option ℚ
deriving DecidableEq

/-- The mutable locals of the single pass over the track
(`total_distance`, `elevation_gain`, `elevation_loss`, and the four
collection lists). -/
structure LoopState where
  total_distance : ℚ
  elevation_gain : ℚ
  elevation_loss : ℚ
  elevations : List ℚ
  latitudes : List ℚ
  longitudes : List ℚ
  timestamps : List ℚ
deriving DecidableEq

/-- Python `round` on an exact value: round half to even (banker's rounding). -/
def roundHalfEven (q : ℚ) : ℤ :=
  let f := Rat.floor q
  let r := q - (f : ℚ)
  if r < 1/2 then f
  else if (1:ℚ)/2 < r then f + 1
  else if f % 2 = 0 then f else f + 1

/-- Python `round(x, 2)`. -/
def round2 (q : ℚ) : ℚ := ((roundHalfEven (q * 100) : ℤ) : ℚ) / 100

/-- Python `int(...)` on an exact value: truncation toward zero. -/
def int_trunc (q : ℚ) : ℤ := if q < 0 then -Rat.floor (-q) else Rat.floor q

/-- Python `max(l)` for a list (None-free), `none` on the empty list. -/
def pymax : List ℚ → Option ℚ
  | [] => none
  | a :: as => some (as.foldl max a)

/-- Python `min(l)` for a list (None-free), `none` on the empty list. -/
def pymin : List ℚ → Option ℚ
  | [] => none
  | a :: as => some (as.foldl min a)

/-- The replacement string `"+00:00"`. -/
def plusZeroOffset : List Char := ['+', '0', '0', ':', '0', '0']

/-- Python `ts.replace("Z", "+00:00")`: the pattern is the single character
`Z`, so replacing every occurrence is a per-character expansion. -/
def replaceZ (s : List Char) : List Char :=
  s.flatMap (fun c => if c = 'Z' then plusZeroOffset else [c])

/-- The coordinate branch of the loop body (source lines 58-68): a point
carrying both `latitude` and `longitude` is appended to the bounding-box
lists, and a leg is added when the previous raw point (`track_data[i-1]`,
here `prevOpt`, `none` when `i = 0`) also carries both coordinates. -/
def coordStep (dist : ℚ → ℚ → ℚ → ℚ → ℚ) (prevOpt : Option TrackPoint)
    (point : TrackPoint) (s : LoopState) : LoopState :=
  match point.latitude, point.longitude with
  | some lat, some lon =>
    let s1 := { s with latitudes := s.latitudes ++ [lat],
                       longitudes := s.longitudes ++ [lon] }
    match prevOpt with
    | some prev_point =>
      match prev_point.latitude, prev_point.longitude with
      | some prev_lat, some prev_lon =>
        { s1 with total_distance := s1.total_distance + dist prev_lat prev_lon lat lon }
      | _, _ => s1
    | none => s1
  | _, _ => s

/-- The elevation branch of the loop body (source lines 70-77):
`elevations.append(elev)`, then `diff = elev - elevations[-2]` when the
list now has more than one entry, added to the gain when positive and to
the loss (as `abs(diff)`) otherwise. -/
def elevStep (point : TrackPoint) (s : LoopState) : LoopState :=
  match point.elevation with
  | some elev =>
    let elevations1 := s.elevations ++ [elev]
    let s1 := { s with elevations := elevations1 }
    if 1 < elevations1.length then
      let diff := elev - elevations1.getD (elevations1.length - 2) 0
      if 0 < diff then { s1 with elevation_gain := s1.elevation_gain + diff }
      else { s1 with elevation_loss := s1.elevation_loss + |diff| }
    else s1
  | none => s

/-- The timestamp branch of the loop body (source lines 79-86): a string
timestamp is parsed after `replace("Z", "+00:00")`, with a parse failure
(`except (ValueError, TypeError)`) turning it into `None`; a surviving
(hence truthy) timestamp is appended. -/
def tsStep (fromiso : List Char → Option ℚ) (point : TrackPoint) (s : LoopState) : LoopState :=
  match point.timestamp with
  | some tv =>
    match (match tv with
           | TsVal.str s2 => fromiso (replaceZ s2)
           | TsVal.dt t => some t) with
    | some t => { s with timestamps := s.timestamps ++ [t] }
    | none => s
  | none => s

/-- One loop iteration given the previous raw point (coordinate branch,
then elevation branch, then timestamp branch, as in the source). -/
def stepPrev (dist : ℚ → ℚ → ℚ → ℚ → ℚ) (fromiso : List Char → Option ℚ)
    (prevOpt : Option TrackPoint) (s : LoopState) (point : TrackPoint) : LoopState :=
  tsStep fromiso point (elevStep point (coordStep dist prevOpt point s))

/-- One loop iteration of `for i, point in enumerate(track_data)`:
the previous raw point is `track_data[i-1]` when `i > 0` (always in
range there, so the `Option` default is never used). -/
def processPoint (dist : ℚ → ℚ → ℚ → ℚ → ℚ) (fromiso : List Char → Option ℚ)
    (track : List TrackPoint) (s : LoopState) (ip : ℕ × TrackPoint) : LoopState :=
  stepPrev dist fromiso
    (if 0 < ip.1 then some ((track.get? (ip.1 - 1)).getD ⟨none, none, none, none⟩) else none)
    s ip.2

/-- The initial values of the loop locals. -/
def initState : LoopState := ⟨0, 0, 0, [], [], [], []⟩

/-- The single pass `for i, point in enumerate(track_data)`. -/
def runLoop (dist : ℚ → ℚ → ℚ → ℚ → ℚ) (fromiso : List Char → Option ℚ)
    (track : List TrackPoint) : LoopState :=
  track.enum.foldl (processPoint dist fromiso track) initState

/-- The early-return record of source lines 30-42: distance `0`, every
other field `None`. -/
def emptyStats : TrackStatistics :=
  { distance_meters := 0, duration_seconds := none, elevation_gain := none,
    elevation_loss := none, max_elevation := none, min_elevation := none,
    avg_speed := none, min_lat := none, max_lat := none, min_lon := none,
    max_lon := none }

/-- Source lines 89-92: `duration_seconds` is `int((timestamps[-1] -
timestamps[0]).total_seconds())` when at least two timestamps were
collected, `None` otherwise. -/
def durationOfTs (ts : List ℚ) : Option ℤ :=
  if 2 ≤ ts.length then some (int_trunc (ts.getLastD 0 - ts.headD 0))
  else none

/-- Source lines 95-97: the unrounded average speed local, set only when
`duration_seconds` is truthy and positive. -/
def avgSpeedRaw (td : ℚ) (ts : List ℚ) : Option ℚ :=
  match durationOfTs ts with
  | some d => if d ≠ 0 ∧ 0 < d then some (td / (d : ℚ)) else none
  | none => none

/-- The result dictionary of source lines 99-111, assembled from the
final loop state. Note that `avg_speed` is rounded only when the
unrounded value is truthy, and that `max`/`min` of the elevation and
coordinate lists are not rounded. -/
def statsOfState (s : LoopState) : TrackStatistics :=
  { distance_meters := round2 s.total_distance,
    duration_seconds := durationOfTs s.timestamps,
    elevation_gain := if s.elevations.isEmpty then none else some (round2 s.elevation_gain),
    elevation_loss := if s.elevations.isEmpty then none else some (round2 s.elevation_loss),
    max_elevation := pymax s.elevations,
    min_elevation := pymin s.elevations,
    avg_speed :=
      match avgSpeedRaw s.total_distance s.timestamps with
      | some q => if q ≠ 0 then some (round2 q) else none
      | none => none,
    min_lat := pymin s.latitudes,
    max_lat := pymax s.latitudes,
    min_lon := pymin s.longitudes,
    max_lon := pymax s.longitudes }

/-- `calculate_track_stats(track_data)`: the guard `if not track_data or
len(track_data) < 2` (equivalent to `len(track_data) < 2`) returns the
all-absent record; otherwise one pass over the input feeds the result
assembly. Parametric in the leg-distance function and the ISO parser. -/
def calculate_track_stats (dist : ℚ → ℚ → ℚ → ℚ → ℚ) (fromiso : List Char → Option ℚ)
    (track_data : List TrackPoint) : TrackStatistics :=
  if track_data.length < 2 then emptyStats
  else statsOfState (runLoop dist fromiso track_data)

/-! ### Series views of the input

These definitions restate, per metric, which data a point contributes;
they are the vocabulary the claims are phrased in, and the loop above is
proven to compute exactly these. -/

/-- The latitude of a coordinate-bearing point (one carrying both
`latitude` and `longitude`); `none` otherwise. -/
def cbLat (p : TrackPoint) : Option ℚ :=
  match p.latitude, p.longitude with
  | some la, some _ => some la
  | _, _ => none

/-- The longitude of a coordinate-bearing point; `none` otherwise. -/
def cbLon (p : TrackPoint) : Option ℚ :=
  match p.latitude, p.longitude with
  | some _, some lo => some lo
  | _, _ => none

/-- The coordinate fields of a point, the only data the distance and
bounding-box accumulators may read. -/
def coords (p : TrackPoint) : Option ℚ × Option ℚ := (p.latitude, p.longitude)

/-- The latitudes of the coordinate-bearing points, in arrival order. -/
def latsOf (track : List TrackPoint) : List ℚ := track.filterMap cbLat

/-- The longitudes of the coordinate-bearing points, in arrival order. -/
def lonsOf (track : List TrackPoint) : List ℚ := track.filterMap cbLon

/-- The elevation series: elevations of elevation-bearing points, in
arrival order. -/
def elevSeries (track : List TrackPoint) : List ℚ :=
  track.filterMap (fun p => p.elevation)

/-- The instant a point contributes to the timestamp series: a string
timestamp is parsed after the `"Z" → "+00:00"` replacement, an
already-parsed instant is taken as-is. -/
def parsedTs (fromiso : List Char → Option ℚ) (p : TrackPoint) : Option ℚ :=
  p.timestamp.bind (fun tv =>
    match tv with
    | TsVal.str s => fromiso (replaceZ s)
    | TsVal.dt t => some t)

/-- The timestamp series: parseable timestamps, in arrival order. -/
def collectTimestamps (fromiso : List Char → Option ℚ) (track : List TrackPoint) : List ℚ :=
  track.filterMap (parsedTs fromiso)

/-- The leg between two raw-adjacent points: the pairwise distance when
both carry both coordinates, and `0` otherwise. -/
def legVal (dist : ℚ → ℚ → ℚ → ℚ → ℚ) (p q : TrackPoint) : ℚ :=
  match p.latitude, p.longitude, q.latitude, q.longitude with
  | some plat, some plon, some la, some lo => dist plat plon la lo
  | _, _, _, _ => 0

/-- Sum of the legs over raw-adjacent pairs of the input sequence. -/
def zipLegSum (dist : ℚ → ℚ → ℚ → ℚ → ℚ) (track : List TrackPoint) : ℚ :=
  ((track.zip track.tail).map (fun pq => legVal dist pq.1 pq.2)).sum

/-- Sum of the positive deltas between consecutive entries of a series. -/
def posDeltaSum (es : List ℚ) : ℚ :=
  ((es.zip es.tail).map (fun ab => if 0 < ab.2 - ab.1 then ab.2 - ab.1 else 0)).sum

/-- Sum of the absolute values of the non-positive deltas between
consecutive entries of a series. -/
def nonposDeltaAbsSum (es : List ℚ) : ℚ :=
  ((es.zip es.tail).map (fun ab => if 0 < ab.2 - ab.1 then 0 else |ab.2 - ab.1|)).sum

/-- The statistics record determined by the raw length, the leg sum and
the four series. -/
def assembleStats (n : ℕ) (td : ℚ) (es ts lats lons : List ℚ) : TrackStatistics :=
  if n < 2 then emptyStats
  else
    { distance_meters := round2 td,
      duration_seconds := durationOfTs ts,
      elevation_gain := if es.isEmpty then none else some (round2 (posDeltaSum es)),
      elevation_loss := if es.isEmpty then none else some (round2 (nonposDeltaAbsSum es)),
      max_elevation := pymax es,
      min_elevation := pymin es,
      avg_speed :=
        match avgSpeedRaw td ts with
        | some q => if q ≠ 0 then some (round2 q) else none
        | none => none,
      min_lat := pymin lats,
      max_lat := pymax lats,
      min_lon := pymin lons,
      max_lon := pymax lons }

/-- The leg contributed by a point given the previous raw point
(`0` when there is none, i.e. at index `0`). -/
def prevLeg (dist : ℚ → ℚ → ℚ → ℚ → ℚ) (prevOpt : Option TrackPoint) (p : TrackPoint) : ℚ :=
  match prevOpt with
  | some q => legVal dist q p
  | none => 0

/-- The gain contributed by one point: positive part of the delta against
the previous elevation entry (`0` when either side is missing). -/
def gainDelta (eo lasto : Option ℚ) : ℚ :=
  match eo, lasto with
  | some e, some pl => if 0 < e - pl then e - pl else 0
  | _, _ => 0

/-- The loss contributed by one point: absolute value of a non-positive
delta against the previous elevation entry (`0` otherwise). -/
def lossDelta (eo lasto : Option ℚ) : ℚ :=
  match eo, lasto with
  | some e, some pl => if 0 < e - pl then 0 else |e - pl|
  | _, _ => 0

/-- The loop re-expressed with the previous raw point carried along
(`track_data[i-1]` is exactly the element visited by the previous
iteration). -/
def loopAux (dist : ℚ → ℚ → ℚ → ℚ → ℚ) (fromiso : List Char → Option ℚ) :
    Option TrackPoint → LoopState → List TrackPoint → LoopState
  | _, s, [] => s
  | prevOpt, s, p :: rest =>
      loopAux dist fromiso (some p) (stepPrev dist fromiso prevOpt s p) rest

/-- Leg sum of a list given the previous raw point. -/
def legSumFrom (dist : ℚ → ℚ → ℚ → ℚ → ℚ) : Option TrackPoint → List TrackPoint → ℚ
  | _, [] => 0
  | prevOpt, p :: rest => prevLeg dist prevOpt p + legSumFrom dist (some p) rest

/-- Accumulated elevation gain of a series given the previous entry. -/
def gainFrom : Option ℚ → List ℚ → ℚ
  | _, [] => 0
  | none, e :: rest => gainFrom (some e) rest
  | some pl, e :: rest => (if 0 < e - pl then e - pl else 0) + gainFrom (some e) rest

/-- Accumulated elevation loss of a series given the previous entry. -/
def lossFrom : Option ℚ → List ℚ → ℚ
  | _, [] => 0
  | none, e :: rest => lossFrom (some e) rest
  | some pl, e :: rest => (if 0 < e - pl then 0 else |e - pl|) + lossFrom (some e) rest

/-! ### The Haversine pairwise distance, over `ℝ`

`calculate_distance` (source lines 9-24) uses `math.sin`, `math.cos`,
`math.sqrt` and `math.atan2`; it is modelled over the real numbers.
`math.sqrt` raises `ValueError` on a negative argument, which is modelled
by an `Option` result. -/

/-- `math.radians`: degrees to radians. -/
noncomputable def radians (x : ℝ) : ℝ := x * Real.pi / 180

/-- `math.sqrt`: raises (returns `none`) on a negative argument. -/
noncomputable def psqrt (x : ℝ) : Option ℝ :=
  if x < 0 then none else some (Real.sqrt x)

/-- `math.atan2 y x` (two-argument arctangent; signed zeros collapse in
`ℝ`, and the `x = 0` row follows `atan2(y, 0.0)`). -/
noncomputable def atan2 (y x : ℝ) : ℝ :=
  if 0 < x then Real.arctan (y / x)
  else if x < 0 then
    (if 0 ≤ y then Real.arctan (y / x) + Real.pi else Real.arctan (y / x) - Real.pi)
  else
    (if 0 < y then Real.pi / 2 else if y < 0 then -(Real.pi / 2) else 0)

/-- The Haversine intermediate `a` of source lines 18-21. -/
noncomputable def haversine_a (lat1 lon1 lat2 lon2 : ℝ) : ℝ :=
  Real.sin (radians (lat2 - lat1) / 2) ^ 2 +
    Real.cos (radians lat1) * Real.cos (radians lat2) *
      Real.sin (radians (lon2 - lon1) / 2) ^ 2

/-- The step of source line 22 as a function of the intermediate `a`:
`c = 2 * atan2(sqrt(a), sqrt(1 - a))`. The intermediate is fed to the
square roots exactly as computed, without any clamping. -/
noncomputable def haversine_c_from_a (a : ℝ) : Option ℝ :=
  match psqrt a, psqrt (1 - a) with
  | some sa, some s1a => some (2 * atan2 sa s1a)
  | _, _ => none

/-- `calculate_distance(lat1, lon1, lat2, lon2)`: `R * c` with
`R = 6371000`. -/
noncomputable def calculate_distance (lat1 lon1 lat2 lon2 : ℝ) : Option ℝ :=
  (haversine_c_from_a (haversine_a lat1 lon1 lat2 lon2)).map (fun c => 6371000 * c)

/-! ### Structural lemmas about one loop iteration -/

lemma getLastD_eq_getLast_getD (l : List ℚ) (d : ℚ) : l.getLastD d = l.getLast?.getD d := by
  cases l with
  | nil => rfl
  | cons a t => simp [List.getLastD_eq_getLast?]

lemma getD_append_last (xs : List ℚ) (e : ℚ) (h : xs ≠ []) :
    (xs ++ [e]).getD (xs.length - 1) 0 = xs.getLast?.getD 0 := by
  induction xs with
  | nil => simp at h
  | cons a t ih =>
    cases t with
    | nil => rfl
    | cons b t2 =>
      have ih2 := ih (by simp)
      rw [List.cons_append]
      have hl : (a :: b :: t2).length - 1 = ((b :: t2).length - 1) + 1 := by simp
      rw [hl, List.getD_cons_succ, ih2, List.getLast?_cons_cons]

lemma coordStep_eq (dist : ℚ → ℚ → ℚ → ℚ → ℚ) (prevOpt : Option TrackPoint)
    (p : TrackPoint) (s : LoopState) :
    coordStep dist prevOpt p s =
      { s with total_distance := s.total_distance + prevLeg dist prevOpt p,
               latitudes := s.latitudes ++ (cbLat p).toList,
               longitudes := s.longitudes ++ (cbLon p).toList } := by
  rcases p with ⟨pla, plo, pel, pts⟩
  rcases s with ⟨td, eg, el2, es, lats, lons, ts⟩
  rcases prevOpt with _ | q
  · cases pla <;> cases plo <;> simp [coordStep, prevLeg, legVal, cbLat, cbLon]
  · rcases q with ⟨qla, qlo, qel, qts⟩
    cases pla <;> cases plo <;> cases qla <;> cases qlo <;>
      simp [coordStep, prevLeg, legVal, cbLat, cbLon]

lemma elevStep_eq (p : TrackPoint) (s : LoopState) :
    elevStep p s =
      { s with elevations := s.elevations ++ (p.elevation).toList,
               elevation_gain := s.elevation_gain + gainDelta p.elevation s.elevations.getLast?,
               elevation_loss := s.elevation_loss + lossDelta p.elevation s.elevations.getLast? } := by
  rcases hpe : p.elevation with _ | e
  · simp [elevStep, hpe, gainDelta, lossDelta]
  · rcases hes : s.elevations with _ | ⟨a, t⟩
    · simp [elevStep, hpe, hes, gainDelta, lossDelta]
    · have hlen : 1 < ((a :: t) ++ [e]).length := by simp
      have hgd : ((a :: t) ++ [e]).getD (((a :: t) ++ [e]).length - 2) 0
          = (a :: t).getLast?.getD 0 := by
        have h1 : ((a :: t) ++ [e]).length - 2 = (a :: t).length - 1 := by simp
        rw [h1, getD_append_last _ _ (by simp)]
      rcases hgl : (a :: t).getLast? with _ | m
      · simp at hgl
      · simp only [elevStep, hpe, hes, if_pos hlen, hgd, hgl, Option.getD_some]
        by_cases hd : 0 < e - m
        · have hd2 : m < e := by linarith
          simp [gainDelta, lossDelta, hgl, hd2]
        · have hd2 : ¬ m < e := by intro hc; exact hd (by linarith)
          simp [gainDelta, lossDelta, hgl, hd2]

lemma tsStep_eq (fromiso : List Char → Option ℚ) (p : TrackPoint) (s : LoopState) :
    tsStep fromiso p s =
      { s with timestamps := s.timestamps ++ (parsedTs fromiso p).toList } := by
  rcases hpt : p.timestamp with _ | tv
  · simp [tsStep, hpt, parsedTs]
  · cases tv with
    | str s2 =>
      rcases h : fromiso (replaceZ s2) with _ | t <;>
        simp [tsStep, hpt, parsedTs, h]
    | dt t => simp [tsStep, hpt, parsedTs]

lemma stepPrev_eq (dist : ℚ → ℚ → ℚ → ℚ → ℚ) (fromiso : List Char → Option ℚ)
    (prevOpt : Option TrackPoint) (s : LoopState) (p : TrackPoint) :
    stepPrev dist fromiso prevOpt s p =
      { total_distance := s.total_distance + prevLeg dist prevOpt p,
        elevation_gain := s.elevation_gain + gainDelta p.elevation s.elevations.getLast?,
        elevation_loss := s.elevation_loss + lossDelta p.elevation s.elevations.getLast?,
        elevations := s.elevations ++ (p.elevation).toList,
        latitudes := s.latitudes ++ (cbLat p).toList,
        longitudes := s.longitudes ++ (cbLon p).toList,
        timestamps := s.timestamps ++ (parsedTs fromiso p).toList } := by
  unfold stepPrev
  rw [coordStep_eq, elevStep_eq, tsStep_eq]

/-! ### Characterization of the loop by the series views -/

lemma loopAux_total_distance (dist : ℚ → ℚ → ℚ → ℚ → ℚ) (fromiso : List Char → Option ℚ) :
    ∀ (l : List TrackPoint) (prevOpt : Option TrackPoint) (s : LoopState),
    (loopAux dist fromiso prevOpt s l).total_distance
      = s.total_distance + legSumFrom dist prevOpt l := by
  intro l
  induction l with
  | nil => intro prevOpt s; simp [loopAux, legSumFrom]
  | cons p rest ih =>
    intro prevOpt s
    show (loopAux dist fromiso (some p) (stepPrev dist fromiso prevOpt s p) rest).total_distance = _
    rw [ih, stepPrev_eq]
    simp [legSumFrom, add_assoc]

lemma loopAux_latitudes (dist : ℚ → ℚ → ℚ → ℚ → ℚ) (fromiso : List Char → Option ℚ) :
    ∀ (l : List TrackPoint) (prevOpt : Option TrackPoint) (s : LoopState),
    (loopAux dist fromiso prevOpt s l).latitudes = s.latitudes ++ latsOf l := by
  intro l
  induction l with
  | nil => intro prevOpt s; simp [loopAux, latsOf]
  | cons p rest ih =>
    intro prevOpt s
    show (loopAux dist fromiso (some p) (stepPrev dist fromiso prevOpt s p) rest).latitudes = _
    rw [ih, stepPrev_eq]
    cases hcb : cbLat p <;> simp [latsOf, List.filterMap_cons, hcb]

lemma loopAux_longitudes (dist : ℚ → ℚ → ℚ → ℚ → ℚ) (fromiso : List Char → Option ℚ) :
    ∀ (l : List TrackPoint) (prevOpt : Option TrackPoint) (s : LoopState),
    (loopAux dist fromiso prevOpt s l).longitudes = s.longitudes ++ lonsOf l := by
  intro l
  induction l with
  | nil => intro prevOpt s; simp [loopAux, lonsOf]
  | cons p rest ih =>
    intro prevOpt s
    show (loopAux dist fromiso (some p) (stepPrev dist fromiso prevOpt s p) rest).longitudes = _
    rw [ih, stepPrev_eq]
    cases hcb : cbLon p <;> simp [lonsOf, List.filterMap_cons, hcb]

lemma loopAux_elevations (dist : ℚ → ℚ → ℚ → ℚ → ℚ) (fromiso : List Char → Option ℚ) :
    ∀ (l : List TrackPoint) (prevOpt : Option TrackPoint) (s : LoopState),
    (loopAux dist fromiso prevOpt s l).elevations = s.elevations ++ elevSeries l := by
  intro l
  induction l with
  | nil => intro prevOpt s; simp [loopAux, elevSeries]
  | cons p rest ih =>
    intro prevOpt s
    show (loopAux dist fromiso (some p) (stepPrev dist fromiso prevOpt s p) rest).elevations = _
    rw [ih, stepPrev_eq]
    cases hpe : p.elevation <;> simp [elevSeries, List.filterMap_cons, hpe]

lemma loopAux_timestamps (dist : ℚ → ℚ → ℚ → ℚ → ℚ) (fromiso : List Char → Option ℚ) :
    ∀ (l : List TrackPoint) (prevOpt : Option TrackPoint) (s : LoopState),
    (loopAux dist fromiso prevOpt s l).timestamps
      = s.timestamps ++ collectTimestamps fromiso l := by
  intro l
  induction l with
  | nil => intro prevOpt s; simp [loopAux, collectTimestamps]
  | cons p rest ih =>
    intro prevOpt s
    show (loopAux dist fromiso (some p) (stepPrev dist fromiso prevOpt s p) rest).timestamps = _
    rw [ih, stepPrev_eq]
    cases hts : parsedTs fromiso p <;> simp [collectTimestamps, List.filterMap_cons, hts]

lemma loopAux_gain (dist : ℚ → ℚ → ℚ → ℚ → ℚ) (fromiso : List Char → Option ℚ) :
    ∀ (l : List TrackPoint) (prevOpt : Option TrackPoint) (s : LoopState),
    (loopAux dist fromiso prevOpt s l).elevation_gain
      = s.elevation_gain + gainFrom s.elevations.getLast? (elevSeries l) := by
  intro l
  induction l with
  | nil => intro prevOpt s; simp [loopAux, gainFrom, elevSeries]
  | cons p rest ih =>
    intro prevOpt s
    show (loopAux dist fromiso (some p) (stepPrev dist fromiso prevOpt s p) rest).elevation_gain = _
    rw [ih, stepPrev_eq]
    cases hpe : p.elevation with
    | none =>
      simp [gainDelta, elevSeries, List.filterMap_cons, hpe]
    | some e =>
      have hcat : (s.elevations ++ [e]).getLast? = some e := by simp
      cases hgl : s.elevations.getLast? with
      | none =>
        simp [gainDelta, gainFrom, elevSeries, List.filterMap_cons, hpe, hcat, hgl]
      | some pl =>
        simp [gainDelta, gainFrom, elevSeries, List.filterMap_cons, hpe, hcat, hgl, add_assoc]

lemma loopAux_loss (dist : ℚ → ℚ → ℚ → ℚ → ℚ) (fromiso : List Char → Option ℚ) :
    ∀ (l : List TrackPoint) (prevOpt : Option TrackPoint) (s : LoopState),
    (loopAux dist fromiso prevOpt s l).elevation_loss
      = s.elevation_loss + lossFrom s.elevations.getLast? (elevSeries l) := by
  intro l
  induction l with
  | nil => intro prevOpt s; simp [loopAux, lossFrom, elevSeries]
  | cons p rest ih =>
    intro prevOpt s
    show (loopAux dist fromiso (some p) (stepPrev dist fromiso prevOpt s p) rest).elevation_loss = _
    rw [ih, stepPrev_eq]
    cases hpe : p.elevation with
    | none =>
      simp [lossDelta, elevSeries, List.filterMap_cons, hpe]
    | some e =>
      have hcat : (s.elevations ++ [e]).getLast? = some e := by simp
      cases hgl : s.elevations.getLast? with
      | none =>
        simp [lossDelta, lossFrom, elevSeries, List.filterMap_cons, hpe, hcat, hgl]
      | some pl =>
        simp [lossDelta, lossFrom, elevSeries, List.filterMap_cons, hpe, hcat, hgl, add_assoc]

/-! ### The indexed fold of the source equals the prev-carrying recursion -/

lemma get?_of_drop_cons {α : Type} (t : List α) (j : ℕ) (p : α) (rest : List α)
    (h : t.drop j = p :: rest) : t.get? j = some p := by
  have hh := List.head?_drop t j
  rw [h] at hh
  simpa using hh.symm

lemma drop_succ_of_drop_cons {α : Type} (t : List α) (j : ℕ) (p : α) (rest : List α)
    (h : t.drop j = p :: rest) : t.drop (j + 1) = rest := by
  have h1 : t.drop (j + 1) = (t.drop j).drop 1 := by rw [List.drop_drop]
  rw [h1, h]
  rfl

lemma foldl_enumFrom_eq_loopAux (dist : ℚ → ℚ → ℚ → ℚ → ℚ)
    (fromiso : List Char → Option ℚ) (track : List TrackPoint) :
    ∀ (l : List TrackPoint) (j : ℕ) (s : LoopState),
      track.drop j = l →
      List.foldl (processPoint dist fromiso track) s (l.enumFrom j) =
        loopAux dist fromiso
          (if 0 < j then some ((track.get? (j - 1)).getD ⟨none, none, none, none⟩) else none)
          s l := by
  intro l
  induction l with
  | nil => intro j s _; rfl
  | cons p rest ih =>
    intro j s hdrop
    have hget : track.get? j = some p := get?_of_drop_cons track j p rest hdrop
    have hrec := ih (j + 1) (processPoint dist fromiso track s (j, p))
      (drop_succ_of_drop_cons track j p rest hdrop)
    calc List.foldl (processPoint dist fromiso track) s ((p :: rest).enumFrom j)
        = List.foldl (processPoint dist fromiso track)
            (processPoint dist fromiso track s (j, p)) (rest.enumFrom (j + 1)) := by
          simp [List.enumFrom]
      _ = loopAux dist fromiso
            (if 0 < j + 1 then some ((track.get? (j + 1 - 1)).getD ⟨none, none, none, none⟩) else none)
            (processPoint dist fromiso track s (j, p)) rest := hrec
      _ = loopAux dist fromiso (some p)
            (stepPrev dist fromiso
              (if 0 < j then some ((track.get? (j - 1)).getD ⟨none, none, none, none⟩) else none)
              s p) rest := by
          have hget2 : track[j]? = some p := by
            rw [← List.get?_eq_getElem?]
            exact hget
          simp [processPoint, hget2]
      _ = loopAux dist fromiso
            (if 0 < j then some ((track.get? (j - 1)).getD ⟨none, none, none, none⟩) else none)
            s (p :: rest) := rfl

lemma runLoop_eq_loopAux (dist : ℚ → ℚ → ℚ → ℚ → ℚ) (fromiso : List Char → Option ℚ)
    (track : List TrackPoint) :
    runLoop dist fromiso track = loopAux dist fromiso none initState track := by
  have h := foldl_enumFrom_eq_loopAux dist fromiso track track 0 initState (by simp)
  simpa [runLoop, List.enum] using h

/-! ### Prev-carrying recursions against the consecutive-pair sums -/

lemma zipLegSum_cons_cons (dist : ℚ → ℚ → ℚ → ℚ → ℚ) (p q : TrackPoint)
    (r : List TrackPoint) :
    zipLegSum dist (p :: q :: r) = legVal dist p q + zipLegSum dist (q :: r) := by
  simp [zipLegSum]

lemma legSumFrom_some_eq (dist : ℚ → ℚ → ℚ → ℚ → ℚ) :
    ∀ (l : List TrackPoint) (q : TrackPoint),
      legSumFrom dist (some q) l = zipLegSum dist (q :: l) := by
  intro l
  induction l with
  | nil => intro q; rfl
  | cons p rest ih =>
    intro q
    rw [zipLegSum_cons_cons]
    simp [legSumFrom, prevLeg, ih p]

lemma legSumFrom_none_eq (dist : ℚ → ℚ → ℚ → ℚ → ℚ) :
    ∀ l : List TrackPoint, legSumFrom dist none l = zipLegSum dist l := by
  intro l
  cases l with
  | nil => rfl
  | cons p rest =>
    simp [legSumFrom, prevLeg, legSumFrom_some_eq]

lemma posDeltaSum_cons_cons (a b : ℚ) (r : List ℚ) :
    posDeltaSum (a :: b :: r) = (if 0 < b - a then b - a else 0) + posDeltaSum (b :: r) := by
  simp [posDeltaSum]

lemma nonposDeltaAbsSum_cons_cons (a b : ℚ) (r : List ℚ) :
    nonposDeltaAbsSum (a :: b :: r)
      = (if 0 < b - a then 0 else |b - a|) + nonposDeltaAbsSum (b :: r) := by
  simp [nonposDeltaAbsSum]

lemma gainFrom_some_eq : ∀ (es : List ℚ) (a : ℚ), gainFrom (some a) es = posDeltaSum (a :: es) := by
  intro es
  induction es with
  | nil => intro a; rfl
  | cons e rest ih =>
    intro a
    rw [posDeltaSum_cons_cons]
    simp [gainFrom, ih e]

lemma gainFrom_none_eq : ∀ es : List ℚ, gainFrom none es = posDeltaSum es := by
  intro es
  cases es with
  | nil => rfl
  | cons e rest => simp [gainFrom, gainFrom_some_eq]

lemma lossFrom_some_eq : ∀ (es : List ℚ) (a : ℚ),
    lossFrom (some a) es = nonposDeltaAbsSum (a :: es) := by
  intro es
  induction es with
  | nil => intro a; rfl
  | cons e rest ih =>
    intro a
    rw [nonposDeltaAbsSum_cons_cons]
    simp [lossFrom, ih e]

lemma lossFrom_none_eq : ∀ es : List ℚ, lossFrom none es = nonposDeltaAbsSum es := by
  intro es
  cases es with
  | nil => rfl
  | cons e rest => simp [lossFrom, lossFrom_some_eq]

/-! ### The engine characterized by the series views -/

lemma stats_char (dist : ℚ → ℚ → ℚ → ℚ → ℚ) (fromiso : List Char → Option ℚ)
    (track : List TrackPoint) :
    calculate_track_stats dist fromiso track =
      assembleStats track.length (zipLegSum dist track) (elevSeries track)
        (collectTimestamps fromiso track) (latsOf track) (lonsOf track) := by
  by_cases h : track.length < 2
  · simp [calculate_track_stats, assembleStats, h]
  · have htd : (runLoop dist fromiso track).total_distance = zipLegSum dist track := by
      rw [runLoop_eq_loopAux, loopAux_total_distance, legSumFrom_none_eq]
      simp [initState]
    have hes : (runLoop dist fromiso track).elevations = elevSeries track := by
      rw [runLoop_eq_loopAux, loopAux_elevations]
      simp [initState]
    have hg : (runLoop dist fromiso track).elevation_gain = posDeltaSum (elevSeries track) := by
      rw [runLoop_eq_loopAux, loopAux_gain]
      simp [initState, gainFrom_none_eq]
    have hl : (runLoop dist fromiso track).elevation_loss
        = nonposDeltaAbsSum (elevSeries track) := by
      rw [runLoop_eq_loopAux, loopAux_loss]
      simp [initState, lossFrom_none_eq]
    have hts : (runLoop dist fromiso track).timestamps = collectTimestamps fromiso track := by
      rw [runLoop_eq_loopAux, loopAux_timestamps]
      simp [initState]
    have hla : (runLoop dist fromiso track).latitudes = latsOf track := by
      rw [runLoop_eq_loopAux, loopAux_latitudes]
      simp [initState]
    have hlo : (runLoop dist fromiso track).longitudes = lonsOf track := by
      rw [runLoop_eq_loopAux, loopAux_longitudes]
      simp [initState]
    rw [calculate_track_stats, assembleStats, if_neg h, if_neg h, statsOfState,
      htd, hes, hg, hl, hts, hla, hlo]

/-! ### Auxiliary facts used by the claims -/

lemma round2_zero : round2 0 = 0 := by decide

lemma zipLegSum_short (dist : ℚ → ℚ → ℚ → ℚ → ℚ) (track : List TrackPoint)
    (h : track.length < 2) : zipLegSum dist track = 0 := by
  match track, h with
  | [], _ => rfl
  | [p], _ => rfl

lemma legVal_left_none (dist : ℚ → ℚ → ℚ → ℚ → ℚ) (p q : TrackPoint)
    (h : cbLat p = none) : legVal dist p q = 0 := by
  rcases p with ⟨pla, plo, pel, pts⟩
  rcases q with ⟨qla, qlo, qel, qts⟩
  cases pla <;> cases plo <;> cases qla <;> cases qlo <;> simp_all [cbLat, legVal]

lemma legVal_right_none (dist : ℚ → ℚ → ℚ → ℚ → ℚ) (p q : TrackPoint)
    (h : cbLat q = none) : legVal dist p q = 0 := by
  rcases p with ⟨pla, plo, pel, pts⟩
  rcases q with ⟨qla, qlo, qel, qts⟩
  cases pla <;> cases plo <;> cases qla <;> cases qlo <;> simp_all [cbLat, legVal]

lemma latsOf_cons_none (p : TrackPoint) (rest : List TrackPoint) (h : cbLat p = none) :
    latsOf (p :: rest) = latsOf rest := by
  simp [latsOf, List.filterMap_cons, h]

lemma latsOf_cons_some (p : TrackPoint) (rest : List TrackPoint) (la : ℚ)
    (h : cbLat p = some la) : latsOf (p :: rest) = la :: latsOf rest := by
  simp [latsOf, List.filterMap_cons, h]

lemma zipLegSum_of_lats_nil (dist : ℚ → ℚ → ℚ → ℚ → ℚ) :
    ∀ track : List TrackPoint, latsOf track = [] → zipLegSum dist track = 0 := by
  intro track
  induction track with
  | nil => intro _; rfl
  | cons p rest ih =>
    intro h
    have hp : cbLat p = none := by
      cases hc : cbLat p with
      | none => rfl
      | some la => rw [latsOf_cons_some p rest la hc] at h; simp at h
    have hrest : latsOf rest = [] := by rwa [latsOf_cons_none p rest hp] at h
    cases rest with
    | nil => rfl
    | cons q r =>
      rw [zipLegSum_cons_cons, legVal_left_none dist p q hp, ih hrest, zero_add]

lemma zipLegSum_of_lats_short (dist : ℚ → ℚ → ℚ → ℚ → ℚ) :
    ∀ track : List TrackPoint, (latsOf track).length < 2 → zipLegSum dist track = 0 := by
  intro track
  induction track with
  | nil => intro _; rfl
  | cons p rest ih =>
    intro h
    cases rest with
    | nil => rfl
    | cons q r =>
      cases hc : cbLat p with
      | none =>
        rw [latsOf_cons_none p _ hc] at h
        rw [zipLegSum_cons_cons, legVal_left_none dist p q hc, ih h, zero_add]
      | some la =>
        rw [latsOf_cons_some p _ la hc] at h
        simp only [List.length_cons] at h
        have hrest : latsOf (q :: r) = [] := by
          have : (latsOf (q :: r)).length = 0 := by omega
          exact List.length_eq_zero.mp this
        have hq : cbLat q = none := by
          cases hcq : cbLat q with
          | none => rfl
          | some lb => rw [latsOf_cons_some q r lb hcq] at hrest; simp at hrest
        rw [zipLegSum_cons_cons, legVal_right_none dist p q hq,
          zipLegSum_of_lats_nil dist (q :: r) hrest, zero_add]

lemma gainFrom_sub_lossFrom :
    ∀ (es : List ℚ) (a : ℚ),
      gainFrom (some a) es - lossFrom (some a) es = es.getLastD a - a := by
  intro es
  induction es with
  | nil => intro a; simp [gainFrom, lossFrom]
  | cons e rest ih =>
    intro a
    have hrec := ih e
    simp only [gainFrom, lossFrom, List.getLastD_cons]
    by_cases hd : 0 < e - a
    · rw [if_pos hd, if_pos hd]
      linarith
    · rw [if_neg hd, if_neg hd]
      have habs : |e - a| = a - e := by
        rw [abs_of_nonpos (by linarith)]
        ring
      rw [habs]
      linarith

lemma foldl_max_spec :
    ∀ (as : List ℚ) (a : ℚ),
      (as.foldl max a ∈ a :: as) ∧ a ≤ as.foldl max a ∧ ∀ x ∈ as, x ≤ as.foldl max a := by
  intro as
  induction as with
  | nil => intro a; simp
  | cons b t ih =>
    intro a
    obtain ⟨hmem, hle, hall⟩ := ih (max a b)
    have hfold : (b :: t).foldl max a = t.foldl max (max a b) := rfl
    refine ⟨?_, ?_, ?_⟩
    · rw [hfold]
      rcases List.mem_cons.mp hmem with h | h
      · rcases max_choice a b with hm | hm <;> rw [h, hm] <;> simp
      · simp [h]
    · rw [hfold]
      exact le_trans (le_max_left a b) hle
    · intro x hx
      rw [hfold]
      rcases List.mem_cons.mp hx with h | h
      · rw [h]
        exact le_trans (le_max_right a b) hle
      · exact hall x h

lemma foldl_min_spec :
    ∀ (as : List ℚ) (a : ℚ),
      (as.foldl min a ∈ a :: as) ∧ as.foldl min a ≤ a ∧ ∀ x ∈ as, as.foldl min a ≤ x := by
  intro as
  induction as with
  | nil => intro a; simp
  | cons b t ih =>
    intro a
    obtain ⟨hmem, hle, hall⟩ := ih (min a b)
    have hfold : (b :: t).foldl min a = t.foldl min (min a b) := rfl
    refine ⟨?_, ?_, ?_⟩
    · rw [hfold]
      rcases List.mem_cons.mp hmem with h | h
      · rcases min_choice a b with hm | hm <;> rw [h, hm] <;> simp
      · simp [h]
    · rw [hfold]
      exact le_trans hle (min_le_left a b)
    · intro x hx
      rw [hfold]
      rcases List.mem_cons.mp hx with h | h
      · rw [h]
        exact le_trans hle (min_le_right a b)
      · exact hall x h

lemma pymax_spec (l : List ℚ) (h : l ≠ []) :
    ∃ m, pymax l = some m ∧ m ∈ l ∧ ∀ x ∈ l, x ≤ m := by
  cases l with
  | nil => exact absurd rfl h
  | cons a t =>
    obtain ⟨hmem, hle, hall⟩ := foldl_max_spec t a
    refine ⟨t.foldl max a, rfl, hmem, ?_⟩
    intro x hx
    rcases List.mem_cons.mp hx with hx | hx
    · rw [hx]
      exact hle
    · exact hall x hx

lemma pymin_spec (l : List ℚ) (h : l ≠ []) :
    ∃ m, pymin l = some m ∧ m ∈ l ∧ ∀ x ∈ l, m ≤ x := by
  cases l with
  | nil => exact absurd rfl h
  | cons a t =>
    obtain ⟨hmem, hle, hall⟩ := foldl_min_spec t a
    refine ⟨t.foldl min a, rfl, hmem, ?_⟩
    intro x hx
    rcases List.mem_cons.mp hx with hx | hx
    · rw [hx]
      exact hle
    · exact hall x hx

lemma latsOf_length_eq_lonsOf_length :
    ∀ track : List TrackPoint, (latsOf track).length = (lonsOf track).length := by
  intro track
  induction track with
  | nil => rfl
  | cons p rest ih =>
    rcases p with ⟨pla, plo, pel, pts⟩
    cases pla <;> cases plo <;>
      simp [latsOf, lonsOf, cbLat, cbLon, List.filterMap_cons] <;>
      simpa [latsOf, lonsOf] using ih

lemma legVal_congr (dist : ℚ → ℚ → ℚ → ℚ → ℚ) (p q a b : TrackPoint)
    (h1 : coords p = coords q) (h2 : coords a = coords b) :
    legVal dist p a = legVal dist q b := by
  have hpla : p.latitude = q.latitude := congrArg Prod.fst h1
  have hplo : p.longitude = q.longitude := congrArg Prod.snd h1
  have hala : a.latitude = b.latitude := congrArg Prod.fst h2
  have halo : a.longitude = b.longitude := congrArg Prod.snd h2
  unfold legVal
  rw [hpla, hplo, hala, halo]

lemma zipLegSum_congr (dist : ℚ → ℚ → ℚ → ℚ → ℚ) :
    ∀ l1 l2 : List TrackPoint, l1.map coords = l2.map coords →
      zipLegSum dist l1 = zipLegSum dist l2 := by
  intro l1
  induction l1 with
  | nil =>
    intro l2 h
    cases l2 with
    | nil => rfl
    | cons q r2 => simp at h
  | cons p r1 ih =>
    intro l2 h
    cases l2 with
    | nil => simp at h
    | cons q r2 =>
      simp only [List.map_cons, List.cons.injEq] at h
      obtain ⟨hpq, hr⟩ := h
      cases r1 with
      | nil =>
        cases r2 with
        | nil => rfl
        | cons q2 r2x => simp at hr
      | cons p2 r1x =>
        cases r2 with
        | nil => simp at hr
        | cons q2 r2x =>
          rw [zipLegSum_cons_cons, zipLegSum_cons_cons]
          have h2 : coords p2 = coords q2 := by
            simp only [List.map_cons, List.cons.injEq] at hr
            exact hr.1
          rw [legVal_congr dist p q p2 q2 hpq h2, ih (q2 :: r2x) hr]

/-! ### Lemmas about the Haversine model -/

lemma sin_half_sq (x : ℝ) : Real.sin (x / 2) ^ 2 = (1 - Real.cos x) / 2 := by
  have h1 := Real.cos_two_mul (x / 2)
  have h2 := Real.sin_sq_add_cos_sq (x / 2)
  have hx : 2 * (x / 2) = x := by ring
  rw [hx] at h1
  linarith

lemma haversine_a_nonneg_le_one (lat1 lon1 lat2 lon2 : ℝ) :
    0 ≤ haversine_a lat1 lon1 lat2 lon2 ∧ haversine_a lat1 lon1 lat2 lon2 ≤ 1 := by
  have hδ : radians (lat2 - lat1) = radians lat2 - radians lat1 := by
    unfold radians
    ring
  have hcc : Real.cos (radians lat1) * Real.cos (radians lat2)
      = (Real.cos (radians lat2 - radians lat1)
          + Real.cos (radians lat1 + radians lat2)) / 2 := by
    rw [Real.cos_sub, Real.cos_add]
    ring
  have hsin := sin_half_sq (radians lat2 - radians lat1)
  unfold haversine_a
  rw [hδ, hsin, hcc]
  set c := Real.cos (radians lat2 - radians lat1) with hc
  set e := Real.cos (radians lat1 + radians lat2) with he
  set s2 := Real.sin (radians (lon2 - lon1) / 2) ^ 2 with hs2
  have h1 : -1 ≤ c := Real.neg_one_le_cos _
  have h2 : c ≤ 1 := Real.cos_le_one _
  have h3 : -1 ≤ e := Real.neg_one_le_cos _
  have h4 : e ≤ 1 := Real.cos_le_one _
  have h5 : 0 ≤ s2 := sq_nonneg _
  have h6 : s2 ≤ 1 := by
    have hb1 := Real.neg_one_le_sin (radians (lon2 - lon1) / 2)
    have hb2 := Real.sin_le_one (radians (lon2 - lon1) / 2)
    nlinarith
  constructor
  · nlinarith [mul_nonneg (by linarith : (0:ℝ) ≤ 1 - c) (by linarith : (0:ℝ) ≤ 1 - s2),
      mul_nonneg (by linarith : (0:ℝ) ≤ 1 + e) h5]
  · nlinarith [mul_nonneg (by linarith : (0:ℝ) ≤ 1 + c) (by linarith : (0:ℝ) ≤ 1 - s2),
      mul_nonneg (by linarith : (0:ℝ) ≤ 1 - e) h5]

lemma atan2_nonneg (y x : ℝ) (hy : 0 ≤ y) (hx : 0 ≤ x) : 0 ≤ atan2 y x := by
  unfold atan2
  split_ifs with h1 h2 h3 h4
  · have h := Real.arctan_strictMono.monotone (div_nonneg hy (le_of_lt h1))
    rwa [Real.arctan_zero] at h
  all_goals linarith [Real.pi_pos]

lemma stats_congr_point (dist : ℚ → ℚ → ℚ → ℚ → ℚ) (fromiso : List Char → Option ℚ)
    (pre post : List TrackPoint) (p q : TrackPoint)
    (hco : coords p = coords q) (hel : p.elevation = q.elevation)
    (hts : parsedTs fromiso p = parsedTs fromiso q) :
    calculate_track_stats dist fromiso (pre ++ p :: post)
      = calculate_track_stats dist fromiso (pre ++ q :: post) := by
  have h1 : p.latitude = q.latitude := congrArg Prod.fst hco
  have h2 : p.longitude = q.longitude := congrArg Prod.snd hco
  have hcbla : cbLat p = cbLat q := by
    unfold cbLat
    rw [h1, h2]
  have hcblo : cbLon p = cbLon q := by
    unfold cbLon
    rw [h1, h2]
  have hlen : (pre ++ p :: post).length = (pre ++ q :: post).length := by simp
  have hleg : zipLegSum dist (pre ++ p :: post) = zipLegSum dist (pre ++ q :: post) :=
    zipLegSum_congr dist _ _ (by simp [hco])
  have hes : elevSeries (pre ++ p :: post) = elevSeries (pre ++ q :: post) := by
    simp [elevSeries, List.filterMap_append, List.filterMap_cons, hel]
  have hcts : collectTimestamps fromiso (pre ++ p :: post)
      = collectTimestamps fromiso (pre ++ q :: post) := by
    simp [collectTimestamps, List.filterMap_append, List.filterMap_cons, hts]
  have hlats : latsOf (pre ++ p :: post) = latsOf (pre ++ q :: post) := by
    simp [latsOf, List.filterMap_append, List.filterMap_cons, hcbla]
  have hlons : lonsOf (pre ++ p :: post) = lonsOf (pre ++ q :: post) := by
    simp [lonsOf, List.filterMap_append, List.filterMap_cons, hcblo]
  rw [stats_char, stats_char, hlen, hleg, hes, hcts, hlats, hlons]

/-! ### Claim theorems -/

/-- C1: for every input sequence, the distance accumulator adds a leg for
the point at raw index `i` (`i > 0`) exactly when the point at raw index
`i-1` also carries both coordinates: `distance_meters` always equals the
rounded sum of `legVal` over raw-adjacent pairs, where `legVal` is the
pairwise distance when both endpoints carry both coordinates and `0`
otherwise; in particular a [coordinate-bearing, coordinates-missing,
coordinate-bearing] sequence has total distance 0, because the
missing-coordinate point is not skipped over when choosing the
predecessor. -/
theorem distance_adds_leg_iff_raw_predecessor_coordinate_bearing :
    (∀ (dist : ℚ → ℚ → ℚ → ℚ → ℚ) (fromiso : List Char → Option ℚ)
        (track : List TrackPoint),
      (calculate_track_stats dist fromiso track).distance_meters
        = round2 (zipLegSum dist track)) ∧
    (∀ (dist : ℚ → ℚ → ℚ → ℚ → ℚ) (fromiso : List Char → Option ℚ) (la1 lo1 la2 lo2 : ℚ),
      (calculate_track_stats dist fromiso
        [⟨some la1, some lo1, none, none⟩, ⟨none, none, none, none⟩,
         ⟨some la2, some lo2, none, none⟩]).distance_meters = 0) := by
  constructor
  · intro dist fromiso track
    rw [stats_char]
    unfold assembleStats
    by_cases h : track.length < 2
    · rw [if_pos h, zipLegSum_short dist track h, round2_zero]
      rfl
    · rw [if_neg h]
  · intro dist fromiso la1 lo1 la2 lo2
    have hz : zipLegSum dist
        ([⟨some la1, some lo1, none, none⟩, ⟨none, none, none, none⟩,
          ⟨some la2, some lo2, none, none⟩] : List TrackPoint) = 0 := by
      rw [zipLegSum_cons_cons, zipLegSum_cons_cons,
        legVal_right_none dist ⟨some la1, some lo1, none, none⟩
          ⟨none, none, none, none⟩ rfl,
        legVal_left_none dist ⟨none, none, none, none⟩
          ⟨some la2, some lo2, none, none⟩ rfl]
      show (0:ℚ) + (0 + zipLegSum dist [⟨some la2, some lo2, none, none⟩]) = 0
      norm_num
      rfl
    rw [stats_char]
    unfold assembleStats
    rw [if_neg (by simp)]
    show round2 _ = 0
    rw [hz, round2_zero]

/-- C2 counterexample: an input of raw length 2 with zero coordinate-bearing
points (fewer than 2) for which the result carries a present optional field
(`elevation_gain = 50`), refuting that every optional field is absent for
inputs with fewer than 2 coordinate-bearing points. The guard in the code
is on the raw length, not on the number of usable-coordinate points. -/
theorem elevation_fields_present_with_no_coordinate_points :
    (latsOf [⟨none, none, some 100, none⟩, ⟨none, none, some 150, none⟩]).length = 0 ∧
    (calculate_track_stats (fun _ _ _ _ => 0) (fun _ => none)
      [⟨none, none, some 100, none⟩, ⟨none, none, some 150, none⟩]).elevation_gain
        = some 50 := by
  constructor
  · rfl
  · decide

/-- C2 (amended): an input of raw length below 2 yields the all-absent
record with distance 0; an input with fewer than 2 coordinate-bearing
points always yields `distance_meters = 0`, but its other fields follow
their own accumulators and may be present. -/
theorem short_input_empty_stats_and_few_coordinate_points_zero_distance :
    (∀ (dist : ℚ → ℚ → ℚ → ℚ → ℚ) (fromiso : List Char → Option ℚ)
        (track : List TrackPoint), track.length < 2 →
      calculate_track_stats dist fromiso track = emptyStats) ∧
    (∀ (dist : ℚ → ℚ → ℚ → ℚ → ℚ) (fromiso : List Char → Option ℚ)
        (track : List TrackPoint), (latsOf track).length < 2 →
      (calculate_track_stats dist fromiso track).distance_meters = 0) := by
  constructor
  · intro dist fromiso track h
    unfold calculate_track_stats
    rw [if_pos h]
  · intro dist fromiso track h
    rw [stats_char]
    unfold assembleStats
    by_cases h2 : track.length < 2
    · rw [if_pos h2]
      rfl
    · rw [if_neg h2]
      show round2 _ = 0
      rw [zipLegSum_of_lats_short dist track h, round2_zero]

/-- Witness for C2 (amended): a single-point input yields the all-absent
record, and a two-point input with one coordinate-bearing point yields
distance 0. -/
theorem short_input_empty_stats_and_few_coordinate_points_zero_distance_witness :
    calculate_track_stats (fun _ _ _ _ => 3) (fun _ => none)
        [⟨some 1, some 2, some 7, none⟩] = emptyStats ∧
    (calculate_track_stats (fun _ _ _ _ => 3) (fun _ => none)
        [⟨some 1, some 2, none, none⟩, ⟨none, none, some 5, none⟩]).distance_meters = 0 :=
  ⟨short_input_empty_stats_and_few_coordinate_points_zero_distance.1 _ _ _ (by decide),
   short_input_empty_stats_and_few_coordinate_points_zero_distance.2 _ _ _ (by decide)⟩

/-- C3: for an input of length at least 2 with a non-empty elevation
series, `elevation_gain` is the rounded sum of the positive consecutive
deltas of the series and `elevation_loss` the rounded sum of the absolute
values of the non-positive consecutive deltas; and the series
[100, 150, 120, 180] has delta sums gain 110 and loss 30 (not the net
change). -/
theorem elevation_gain_loss_are_signed_delta_sums :
    (∀ (dist : ℚ → ℚ → ℚ → ℚ → ℚ) (fromiso : List Char → Option ℚ)
        (track : List TrackPoint), 2 ≤ track.length → elevSeries track ≠ [] →
      (calculate_track_stats dist fromiso track).elevation_gain
          = some (round2 (posDeltaSum (elevSeries track))) ∧
      (calculate_track_stats dist fromiso track).elevation_loss
          = some (round2 (nonposDeltaAbsSum (elevSeries track)))) ∧
    (posDeltaSum [100, 150, 120, 180] = 110 ∧
      nonposDeltaAbsSum [100, 150, 120, 180] = 30) := by
  constructor
  · intro dist fromiso track hlen hne
    rcases hse : elevSeries track with _ | ⟨e, es2⟩
    · exact absurd hse hne
    · rw [stats_char]
      unfold assembleStats
      rw [if_neg (by omega), hse]
      constructor
      · show (if (e :: es2).isEmpty then none
            else some (round2 (posDeltaSum (e :: es2)))) = _
        simp
      · show (if (e :: es2).isEmpty then none
            else some (round2 (nonposDeltaAbsSum (e :: es2)))) = _
        simp
  · constructor <;> decide

/-- Witness for C3: a 4-point track with elevations [100, 150, 120, 180]
has `elevation_gain = 110` and `elevation_loss = 30`. -/
theorem elevation_gain_loss_are_signed_delta_sums_witness :
    (calculate_track_stats (fun _ _ _ _ => 0) (fun _ => none)
      [⟨none, none, some 100, none⟩, ⟨none, none, some 150, none⟩,
       ⟨none, none, some 120, none⟩, ⟨none, none, some 180, none⟩]).elevation_gain
        = some 110 ∧
    (calculate_track_stats (fun _ _ _ _ => 0) (fun _ => none)
      [⟨none, none, some 100, none⟩, ⟨none, none, some 150, none⟩,
       ⟨none, none, some 120, none⟩, ⟨none, none, some 180, none⟩]).elevation_loss
        = some 30 := by
  have h := elevation_gain_loss_are_signed_delta_sums.1 (fun _ _ _ _ => 0) (fun _ => none)
    [⟨none, none, some 100, none⟩, ⟨none, none, some 150, none⟩,
     ⟨none, none, some 120, none⟩, ⟨none, none, some 180, none⟩] (by decide) (by decide)
  constructor
  · rw [h.1]
    decide
  · rw [h.2]
    decide

/-- C4 counterexample: a track whose unrounded average speed is `1/1000`
(positive duration 1000 s, distance 1 m) reports `avg_speed = some 0` —
the value rounds to exactly 0 at 2 decimal places yet is present, because
the code's falsy check is on the unrounded value, refuting that a speed
rounding to 0 is reported as absent. -/
theorem avg_speed_present_as_zero_when_rounding_to_zero :
    (calculate_track_stats (fun _ _ _ _ => 1) (fun _ => none)
      [⟨some 0, some 0, none, some (TsVal.dt 0)⟩,
       ⟨some 0, some 1, none, some (TsVal.dt 1000)⟩]).avg_speed = some 0 := by
  decide

/-- C4 (amended): `avg_speed` is absent when the duration is absent or not
strictly positive, and also when the unrounded speed (equivalently, the
total distance) is exactly 0; otherwise it is the distance-over-duration
quotient rounded to 2 decimal places — which may itself be a present 0. -/
theorem avg_speed_presence_characterization :
    ∀ (dist : ℚ → ℚ → ℚ → ℚ → ℚ) (fromiso : List Char → Option ℚ)
        (track : List TrackPoint),
      ((calculate_track_stats dist fromiso track).duration_seconds = none →
        (calculate_track_stats dist fromiso track).avg_speed = none) ∧
      (∀ d : ℤ, (calculate_track_stats dist fromiso track).duration_seconds = some d →
        d ≤ 0 → (calculate_track_stats dist fromiso track).avg_speed = none) ∧
      (∀ d : ℤ, (calculate_track_stats dist fromiso track).duration_seconds = some d →
        0 < d → zipLegSum dist track = 0 →
        (calculate_track_stats dist fromiso track).avg_speed = none) ∧
      (∀ d : ℤ, (calculate_track_stats dist fromiso track).duration_seconds = some d →
        0 < d → zipLegSum dist track ≠ 0 →
        (calculate_track_stats dist fromiso track).avg_speed
          = some (round2 (zipLegSum dist track / (d : ℚ)))) := by
  intro dist fromiso track
  rw [stats_char]
  unfold assembleStats
  by_cases h : track.length < 2
  · rw [if_pos h]
    refine ⟨fun _ => rfl, ?_, ?_, ?_⟩
    · intro d hd
      exact absurd hd (by simp [emptyStats])
    · intro d hd
      exact absurd hd (by simp [emptyStats])
    · intro d hd
      exact absurd hd (by simp [emptyStats])
  · rw [if_neg h]
    refine ⟨?_, ?_, ?_, ?_⟩
    · intro hd
      have hd2 : durationOfTs (collectTimestamps fromiso track) = none := hd
      show (match avgSpeedRaw (zipLegSum dist track) (collectTimestamps fromiso track) with
        | some q => if q ≠ 0 then some (round2 q) else none
        | none => none) = none
      unfold avgSpeedRaw
      rw [hd2]
    · intro d hd hdle
      have hd2 : durationOfTs (collectTimestamps fromiso track) = some d := hd
      show (match avgSpeedRaw (zipLegSum dist track) (collectTimestamps fromiso track) with
        | some q => if q ≠ 0 then some (round2 q) else none
        | none => none) = none
      unfold avgSpeedRaw
      rw [hd2]
      show (match (if d ≠ 0 ∧ 0 < d then
          some (zipLegSum dist track / (d : ℚ)) else none) with
        | some q => if q ≠ 0 then some (round2 q) else none
        | none => none) = none
      rw [if_neg (by omega)]
    · intro d hd hdpos htd
      have hd2 : durationOfTs (collectTimestamps fromiso track) = some d := hd
      show (match avgSpeedRaw (zipLegSum dist track) (collectTimestamps fromiso track) with
        | some q => if q ≠ 0 then some (round2 q) else none
        | none => none) = none
      unfold avgSpeedRaw
      rw [hd2]
      show (match (if d ≠ 0 ∧ 0 < d then
          some (zipLegSum dist track / (d : ℚ)) else none) with
        | some q => if q ≠ 0 then some (round2 q) else none
        | none => none) = none
      rw [if_pos ⟨by omega, hdpos⟩]
      show (if zipLegSum dist track / (d : ℚ) ≠ 0 then
          some (round2 (zipLegSum dist track / (d : ℚ))) else none) = none
      rw [htd]
      norm_num
    · intro d hd hdpos htd
      have hd2 : durationOfTs (collectTimestamps fromiso track) = some d := hd
      show (match avgSpeedRaw (zipLegSum dist track) (collectTimestamps fromiso track) with
        | some q => if q ≠ 0 then some (round2 q) else none
        | none => none) = some (round2 (zipLegSum dist track / (d : ℚ)))
      unfold avgSpeedRaw
      rw [hd2]
      show (match (if d ≠ 0 ∧ 0 < d then
          some (zipLegSum dist track / (d : ℚ)) else none) with
        | some q => if q ≠ 0 then some (round2 q) else none
        | none => none) = some (round2 (zipLegSum dist track / (d : ℚ)))
      rw [if_pos ⟨by omega, hdpos⟩]
      have hq : zipLegSum dist track / (d : ℚ) ≠ 0 :=
        div_ne_zero htd (by exact_mod_cast (by omega : d ≠ 0))
      show (if zipLegSum dist track / (d : ℚ) ≠ 0 then
          some (round2 (zipLegSum dist track / (d : ℚ))) else none)
        = some (round2 (zipLegSum dist track / (d : ℚ)))
      rw [if_pos hq]

/-- Witness for C4 (amended): distance 500 over duration 10 gives a present
`avg_speed` equal to the rounded quotient. -/
theorem avg_speed_presence_characterization_witness :
    (calculate_track_stats (fun _ _ _ _ => 500) (fun _ => none)
      [⟨some 0, some 0, none, some (TsVal.dt 0)⟩,
       ⟨some 0, some 1, none, some (TsVal.dt 10)⟩]).avg_speed
      = some (round2 (zipLegSum (fun _ _ _ _ => 500)
          [⟨some 0, some 0, none, some (TsVal.dt 0)⟩,
           ⟨some 0, some 1, none, some (TsVal.dt 10)⟩] / ((10 : ℤ) : ℚ))) :=
  (avg_speed_presence_characterization (fun _ _ _ _ => 500) (fun _ => none)
    [⟨some 0, some 0, none, some (TsVal.dt 0)⟩,
     ⟨some 0, some 1, none, some (TsVal.dt 10)⟩]).2.2.2 10 (by decide) (by decide) (by decide)

/-- C5 counterexample: the pairwise distance computation does not clamp the
Haversine intermediate `a` to `[0, 1]`: fed an intermediate outside that
interval (the situation the claim says the clamp makes safe), the
`sqrt`/`atan2` step hits a square-root domain error (`none`), while the
clamped intermediate would not. -/
theorem haversine_intermediate_not_clamped :
    haversine_c_from_a 2 = none ∧ haversine_c_from_a (max 0 (min 1 2)) ≠ none := by
  constructor
  · have h1 : ¬ ((2:ℝ) < 0) := by norm_num
    have h2 : ((1:ℝ) - 2) < 0 := by norm_num
    simp [haversine_c_from_a, psqrt, h1, h2]
  · have hm : max (0:ℝ) (min 1 2) = 1 := by norm_num
    rw [hm]
    have h1 : ¬ ((1:ℝ) < 0) := by norm_num
    have h2 : ¬ ((1:ℝ) - 1 < 0) := by norm_num
    simp [haversine_c_from_a, psqrt, h1, h2]

/-- C5 (amended): the code performs no clamping, but in exact real
arithmetic the Haversine intermediate `a` always lies in `[0, 1]`, so for
every input the per-leg distance is a well-defined (`some`) non-negative
number and no square-root domain error occurs. -/
theorem per_leg_distance_defined_and_nonneg :
    ∀ lat1 lon1 lat2 lon2 : ℝ,
      0 ≤ haversine_a lat1 lon1 lat2 lon2 ∧ haversine_a lat1 lon1 lat2 lon2 ≤ 1 ∧
      ∃ d, calculate_distance lat1 lon1 lat2 lon2 = some d ∧ 0 ≤ d := by
  intro lat1 lon1 lat2 lon2
  obtain ⟨h0, h1⟩ := haversine_a_nonneg_le_one lat1 lon1 lat2 lon2
  refine ⟨h0, h1, ?_⟩
  have hp1 : psqrt (haversine_a lat1 lon1 lat2 lon2)
      = some (Real.sqrt (haversine_a lat1 lon1 lat2 lon2)) := by
    unfold psqrt
    rw [if_neg (not_lt.mpr h0)]
  have hp2 : psqrt (1 - haversine_a lat1 lon1 lat2 lon2)
      = some (Real.sqrt (1 - haversine_a lat1 lon1 lat2 lon2)) := by
    unfold psqrt
    rw [if_neg (not_lt.mpr (by linarith))]
  refine ⟨6371000 * (2 * atan2 (Real.sqrt (haversine_a lat1 lon1 lat2 lon2))
      (Real.sqrt (1 - haversine_a lat1 lon1 lat2 lon2))), ?_, ?_⟩
  · unfold calculate_distance haversine_c_from_a
    rw [hp1, hp2]
    rfl
  · have hat := atan2_nonneg (Real.sqrt (haversine_a lat1 lon1 lat2 lon2))
      (Real.sqrt (1 - haversine_a lat1 lon1 lat2 lon2))
      (Real.sqrt_nonneg _) (Real.sqrt_nonneg _)
    have h2 : (0:ℝ) ≤ 2 * atan2 (Real.sqrt (haversine_a lat1 lon1 lat2 lon2))
        (Real.sqrt (1 - haversine_a lat1 lon1 lat2 lon2)) := by linarith
    exact mul_nonneg (by norm_num) h2

/-- C6 counterexample: a track whose only elevation is `100.129` reports
`max_elevation = some 100.129`, which differs from its value rounded to 2
decimal places (`100.13`), refuting that all four elevation outputs are
rounded. -/
theorem max_elevation_not_rounded :
    (calculate_track_stats (fun _ _ _ _ => 0) (fun _ => none)
      [⟨none, none, some (100129/1000), none⟩, ⟨none, none, none, none⟩]).max_elevation
        = some (100129/1000) ∧
    round2 (100129/1000) ≠ (100129/1000 : ℚ) := by
  constructor <;> decide

/-- C6 (amended): for an input of length at least 2 with a non-empty
elevation series, `elevation_gain` and `elevation_loss` are rounded to 2
decimal places, while `max_elevation` and `min_elevation` are the plain
(unrounded) extrema of the elevation series. -/
theorem elevation_outputs_rounding_and_extrema :
    ∀ (dist : ℚ → ℚ → ℚ → ℚ → ℚ) (fromiso : List Char → Option ℚ)
        (track : List TrackPoint), 2 ≤ track.length → elevSeries track ≠ [] →
      (calculate_track_stats dist fromiso track).elevation_gain
          = some (round2 (posDeltaSum (elevSeries track))) ∧
      (calculate_track_stats dist fromiso track).elevation_loss
          = some (round2 (nonposDeltaAbsSum (elevSeries track))) ∧
      (∃ m, (calculate_track_stats dist fromiso track).max_elevation = some m ∧
        m ∈ elevSeries track ∧ ∀ x ∈ elevSeries track, x ≤ m) ∧
      (∃ m, (calculate_track_stats dist fromiso track).min_elevation = some m ∧
        m ∈ elevSeries track ∧ ∀ x ∈ elevSeries track, m ≤ x) := by
  intro dist fromiso track hlen hne
  rw [stats_char]
  unfold assembleStats
  rw [if_neg (by omega)]
  rcases hse : elevSeries track with _ | ⟨e, es2⟩
  · exact absurd hse hne
  · refine ⟨by simp, by simp, ?_, ?_⟩
    · obtain ⟨m, hm, hmem, hall⟩ := pymax_spec (e :: es2) (by simp)
      exact ⟨m, hm, hmem, hall⟩
    · obtain ⟨m, hm, hmem, hall⟩ := pymin_spec (e :: es2) (by simp)
      exact ⟨m, hm, hmem, hall⟩

/-- Witness for C6 (amended): a 2-point track with elevations satisfies
the rounded-gain equation. -/
theorem elevation_outputs_rounding_and_extrema_witness :
    2 ≤ ([⟨none, none, some (100129/1000), none⟩, ⟨none, none, some 50, none⟩]
        : List TrackPoint).length ∧
    elevSeries ([⟨none, none, some (100129/1000), none⟩, ⟨none, none, some 50, none⟩]
        : List TrackPoint) ≠ [] ∧
    (calculate_track_stats (fun _ _ _ _ => 0) (fun _ => none)
      [⟨none, none, some (100129/1000), none⟩, ⟨none, none, some 50, none⟩]).elevation_gain
        = some (round2 (posDeltaSum (elevSeries
            ([⟨none, none, some (100129/1000), none⟩, ⟨none, none, some 50, none⟩]
              : List TrackPoint)))) :=
  ⟨by decide, by decide,
   (elevation_outputs_rounding_and_extrema (fun _ _ _ _ => 0) (fun _ => none)
     [⟨none, none, some (100129/1000), none⟩, ⟨none, none, some 50, none⟩]
     (by decide) (by decide)).1⟩

/-- C7 counterexample: for timestamps in decreasing order with a
fractional difference (first `3/2`, last `0`), the engine reports
`duration_seconds = -1` — `int(-1.5)` truncates toward zero — while the
floor of the difference `0 - 3/2` is `-2`, refuting that the difference
is floored. -/
theorem duration_truncated_not_floored :
    (calculate_track_stats (fun _ _ _ _ => 0) (fun _ => none)
      [⟨none, none, none, some (TsVal.dt (3/2))⟩,
       ⟨none, none, none, some (TsVal.dt 0)⟩]).duration_seconds = some (-1) ∧
    Rat.floor ((0 : ℚ) - 3/2) = -2 := by
  constructor <;> decide

/-- C7 (amended): `duration_seconds` is present exactly when at least 2
points carry a parseable timestamp, and then equals the difference between
the last and the first collected timestamp (in arrival order) truncated
toward zero (`int(...)`), which coincides with flooring only for
non-negative differences. -/
theorem duration_presence_and_truncated_value :
    ∀ (dist : ℚ → ℚ → ℚ → ℚ → ℚ) (fromiso : List Char → Option ℚ)
        (track : List TrackPoint),
      (calculate_track_stats dist fromiso track).duration_seconds
        = (if 2 ≤ (collectTimestamps fromiso track).length then
            some (int_trunc ((collectTimestamps fromiso track).getLastD 0
              - (collectTimestamps fromiso track).headD 0))
          else none) := by
  intro dist fromiso track
  rw [stats_char]
  unfold assembleStats
  by_cases h : track.length < 2
  · rw [if_pos h]
    have hts : (collectTimestamps fromiso track).length ≤ track.length :=
      List.length_filterMap_le _ _
    rw [if_neg (by omega)]
    rfl
  · rw [if_neg h]
    rfl

/-- C8: the engine never raises — it is a total function into
`TrackStatistics` — and malformed fields are silently excluded: a point
whose string timestamp fails to parse (after the `"Z" → "+00:00"`
replacement) contributes exactly as the same point with the timestamp
absent, and a string timestamp that parses (the `"Z"` suffix having been
replaced by the explicit offset before parsing) contributes exactly as the
already-parsed instant. -/
theorem malformed_timestamps_silently_excluded :
    ∀ (dist : ℚ → ℚ → ℚ → ℚ → ℚ) (fromiso : List Char → Option ℚ)
        (pre post : List TrackPoint) (la lo el : Option ℚ) (s : List Char),
      (fromiso (replaceZ s) = none →
        calculate_track_stats dist fromiso (pre ++ ⟨la, lo, el, some (TsVal.str s)⟩ :: post)
          = calculate_track_stats dist fromiso (pre ++ ⟨la, lo, el, none⟩ :: post)) ∧
      (∀ t : ℚ, fromiso (replaceZ s) = some t →
        calculate_track_stats dist fromiso (pre ++ ⟨la, lo, el, some (TsVal.str s)⟩ :: post)
          = calculate_track_stats dist fromiso (pre ++ ⟨la, lo, el, some (TsVal.dt t)⟩ :: post)) := by
  intro dist fromiso pre post la lo el s
  constructor
  · intro h
    exact stats_congr_point dist fromiso pre post _ _ rfl rfl (by simp [parsedTs, h])
  · intro t h
    exact stats_congr_point dist fromiso pre post _ _ rfl rfl (by simp [parsedTs, h])

/-- Witness for C8: with a parser accepting exactly `"A+00:00"`, the string
`"B"` fails to parse and the point behaves as timestamp-less, while the
string `"AZ"` is accepted through the replacement and behaves as the
instant 5. -/
theorem malformed_timestamps_silently_excluded_witness :
    (fun l => if l = ['A', '+', '0', '0', ':', '0', '0'] then some (5:ℚ) else none)
        (replaceZ ['B']) = none ∧
    calculate_track_stats (fun _ _ _ _ => 0)
        (fun l => if l = ['A', '+', '0', '0', ':', '0', '0'] then some (5:ℚ) else none)
        ([⟨some 1, some 2, none, some (TsVal.dt 0)⟩]
          ++ ⟨some 3, some 4, some 7, some (TsVal.str ['B'])⟩ :: [])
      = calculate_track_stats (fun _ _ _ _ => 0)
        (fun l => if l = ['A', '+', '0', '0', ':', '0', '0'] then some (5:ℚ) else none)
        ([⟨some 1, some 2, none, some (TsVal.dt 0)⟩]
          ++ ⟨some 3, some 4, some 7, none⟩ :: []) ∧
    (fun l => if l = ['A', '+', '0', '0', ':', '0', '0'] then some (5:ℚ) else none)
        (replaceZ ['A', 'Z']) = some 5 ∧
    calculate_track_stats (fun _ _ _ _ => 0)
        (fun l => if l = ['A', '+', '0', '0', ':', '0', '0'] then some (5:ℚ) else none)
        ([⟨some 1, some 2, none, some (TsVal.dt 0)⟩]
          ++ ⟨some 3, some 4, some 7, some (TsVal.str ['A', 'Z'])⟩ :: [])
      = calculate_track_stats (fun _ _ _ _ => 0)
        (fun l => if l = ['A', '+', '0', '0', ':', '0', '0'] then some (5:ℚ) else none)
        ([⟨some 1, some 2, none, some (TsVal.dt 0)⟩]
          ++ ⟨some 3, some 4, some 7, some (TsVal.dt 5)⟩ :: []) :=
  ⟨by decide,
   (malformed_timestamps_silently_excluded (fun _ _ _ _ => 0)
     (fun l => if l = ['A', '+', '0', '0', ':', '0', '0'] then some (5:ℚ) else none)
     [⟨some 1, some 2, none, some (TsVal.dt 0)⟩] [] (some 3) (some 4) (some 7) ['B']).1
     (by decide),
   by decide,
   (malformed_timestamps_silently_excluded (fun _ _ _ _ => 0)
     (fun l => if l = ['A', '+', '0', '0', ':', '0', '0'] then some (5:ℚ) else none)
     [⟨some 1, some 2, none, some (TsVal.dt 0)⟩] [] (some 3) (some 4) (some 7) ['A', 'Z']).2
     5 (by decide)⟩

/-- C9 counterexample: an input whose only point is coordinate-bearing
(latitude 47, longitude 11) reports `min_lat = none` — the raw-length
guard returns the all-absent record — refuting that a single
coordinate-bearing point yields `min_lat = max_lat =` that latitude. -/
theorem single_point_bounding_box_absent :
    latsOf [⟨some 47, some 11, none, none⟩] = [47] ∧
    (calculate_track_stats (fun _ _ _ _ => 0) (fun _ => none)
      [⟨some 47, some 11, none, none⟩]).min_lat = none := by
  constructor
  · rfl
  · decide

/-- C9 (amended): the four bounding-box fields are absent when no
coordinate-bearing point exists or the raw input has fewer than 2 points;
for a raw length of at least 2 with at least one coordinate-bearing point,
they are the plain extrema of the coordinate-bearing latitudes and
longitudes (so a single coordinate-bearing point among at least 2 raw
points gives `min_lat = max_lat =` that latitude). -/
theorem bounding_box_extrema_characterization :
    ∀ (dist : ℚ → ℚ → ℚ → ℚ → ℚ) (fromiso : List Char → Option ℚ)
        (track : List TrackPoint),
      ((latsOf track = [] ∨ track.length < 2) →
        (calculate_track_stats dist fromiso track).min_lat = none ∧
        (calculate_track_stats dist fromiso track).max_lat = none ∧
        (calculate_track_stats dist fromiso track).min_lon = none ∧
        (calculate_track_stats dist fromiso track).max_lon = none) ∧
      (2 ≤ track.length → latsOf track ≠ [] →
        (∃ m, (calculate_track_stats dist fromiso track).min_lat = some m ∧
          m ∈ latsOf track ∧ ∀ x ∈ latsOf track, m ≤ x) ∧
        (∃ m, (calculate_track_stats dist fromiso track).max_lat = some m ∧
          m ∈ latsOf track ∧ ∀ x ∈ latsOf track, x ≤ m) ∧
        (∃ m, (calculate_track_stats dist fromiso track).min_lon = some m ∧
          m ∈ lonsOf track ∧ ∀ x ∈ lonsOf track, m ≤ x) ∧
        (∃ m, (calculate_track_stats dist fromiso track).max_lon = some m ∧
          m ∈ lonsOf track ∧ ∀ x ∈ lonsOf track, x ≤ m)) := by
  intro dist fromiso track
  rw [stats_char]
  unfold assembleStats
  constructor
  · intro hcase
    by_cases h : track.length < 2
    · rw [if_pos h]
      exact ⟨rfl, rfl, rfl, rfl⟩
    · rw [if_neg h]
      rcases hcase with hnil | hlen
      · have hlon : lonsOf track = [] := by
          have hl := latsOf_length_eq_lonsOf_length track
          rw [hnil] at hl
          exact List.length_eq_zero.mp hl.symm
        refine ⟨?_, ?_, ?_, ?_⟩
        · show pymin (latsOf track) = none
          rw [hnil]
          rfl
        · show pymax (latsOf track) = none
          rw [hnil]
          rfl
        · show pymin (lonsOf track) = none
          rw [hlon]
          rfl
        · show pymax (lonsOf track) = none
          rw [hlon]
          rfl
      · omega
  · intro hlen hne
    rw [if_neg (by omega)]
    have hlonne : lonsOf track ≠ [] := by
      intro hl
      have heq := latsOf_length_eq_lonsOf_length track
      rw [hl] at heq
      simp only [List.length_nil] at heq
      exact hne (List.length_eq_zero.mp heq)
    obtain ⟨m1, hm1, hmem1, hall1⟩ := pymin_spec (latsOf track) hne
    obtain ⟨m2, hm2, hmem2, hall2⟩ := pymax_spec (latsOf track) hne
    obtain ⟨m3, hm3, hmem3, hall3⟩ := pymin_spec (lonsOf track) hlonne
    obtain ⟨m4, hm4, hmem4, hall4⟩ := pymax_spec (lonsOf track) hlonne
    exact ⟨⟨m1, hm1, hmem1, hall1⟩, ⟨m2, hm2, hmem2, hall2⟩,
      ⟨m3, hm3, hmem3, hall3⟩, ⟨m4, hm4, hmem4, hall4⟩⟩

/-- Witness for C9 (amended): for a 2-point input whose only
coordinate-bearing point has latitude 47, the reported `min_lat` is a
member of the coordinate-bearing latitude list `[47]`. -/
theorem bounding_box_extrema_characterization_witness :
    2 ≤ ([⟨some 47, some 11, none, none⟩, ⟨none, none, none, none⟩]
        : List TrackPoint).length ∧
    latsOf ([⟨some 47, some 11, none, none⟩, ⟨none, none, none, none⟩]
        : List TrackPoint) ≠ [] ∧
    ((calculate_track_stats (fun _ _ _ _ => 0) (fun _ => none)
      [⟨some 47, some 11, none, none⟩, ⟨none, none, none, none⟩]).min_lat).getD 0
      ∈ latsOf ([⟨some 47, some 11, none, none⟩, ⟨none, none, none, none⟩]
        : List TrackPoint) := by
  refine ⟨by decide, by decide, ?_⟩
  obtain ⟨m, hm, hmem, hall⟩ :=
    ((bounding_box_extrema_characterization (fun _ _ _ _ => 0) (fun _ => none)
      [⟨some 47, some 11, none, none⟩, ⟨none, none, none, none⟩]).2
      (by decide) (by decide)).1
  rw [hm]
  simpa using hmem

/-- C10: for an input of length at least 2 with a non-empty elevation
series, the unrounded loop accumulators satisfy the telescoping identity:
elevation gain minus elevation loss equals the last elevation entry minus
the first. -/
theorem gain_minus_loss_telescopes :
    ∀ (dist : ℚ → ℚ → ℚ → ℚ → ℚ) (fromiso : List Char → Option ℚ)
        (track : List TrackPoint), 2 ≤ track.length → elevSeries track ≠ [] →
      (runLoop dist fromiso track).elevation_gain
          - (runLoop dist fromiso track).elevation_loss
        = (elevSeries track).getLastD 0 - (elevSeries track).headD 0 := by
  intro dist fromiso track hlen hne
  rw [runLoop_eq_loopAux, loopAux_gain, loopAux_loss]
  rcases hse : elevSeries track with _ | ⟨e, rest⟩
  · exact absurd hse hne
  · have htel := gainFrom_sub_lossFrom rest e
    simp only [initState, List.getLast?_nil, List.getLastD_cons, List.headD_cons,
      gainFrom, lossFrom, zero_add]
    linarith

/-- Witness for C10: a 3-point track with elevations [100, 150, 120]
satisfies the telescoping identity. -/
theorem gain_minus_loss_telescopes_witness :
    (runLoop (fun _ _ _ _ => 0) (fun _ => none)
      [⟨none, none, some 100, none⟩, ⟨none, none, some 150, none⟩,
       ⟨none, none, some 120, none⟩]).elevation_gain
      - (runLoop (fun _ _ _ _ => 0) (fun _ => none)
      [⟨none, none, some 100, none⟩, ⟨none, none, some 150, none⟩,
       ⟨none, none, some 120, none⟩]).elevation_loss
      = (elevSeries [⟨none, none, some 100, none⟩, ⟨none, none, some 150, none⟩,
          ⟨none, none, some 120, none⟩]).getLastD 0
        - (elevSeries [⟨none, none, some 100, none⟩, ⟨none, none, some 150, none⟩,
          ⟨none, none, some 120, none⟩]).headD 0 :=
  gain_minus_loss_telescopes (fun _ _ _ _ => 0) (fun _ => none)
    [⟨none, none, some 100, none⟩, ⟨none, none, some 150, none⟩,
     ⟨none, none, some 120, none⟩] (by decide) (by decide)

end TrackService
